import Mathlib

/-!
Shallow embedding of the JSONVault node backend: the persistence layer
(`setDynamicConfig`, `getDynamicConfigData`), the expiry sweep
(`compareDateInDays`, `removeDayOldData`) and the static-file handler
(`serveStaticFile`).  File I/O is made explicit: the mappings array of the
persisted document `{ mappings: [...] }` is passed in and returned as state,
and fallible reads/writes are `Except` parameters.  `JSON.parse` and
`Date` parsing are abstract function parameters (`none` models a parse
failure / an Invalid Date).
-/

namespace JsonVault

/-! ### JS string primitives, implemented on the character list -/

/-- ASCII whitespace, as relevant to JS `String.prototype.trim` on the keys
and ids considered here. -/
def isJsSpace (c : Char) : Bool :=
  c == ' ' || c == '\t' || c == '\n' || c == '\r'

/-- Drop leading and trailing whitespace from a character list. -/
def trimChars (s : List Char) : List Char :=
  ((s.dropWhile isJsSpace).reverse.dropWhile isJsSpace).reverse

/-- JS `String.prototype.trim`. -/
def jsTrim (s : String) : String := String.mk (trimChars s.data)

/-- JS `String.prototype.startsWith`. -/
def jsStartsWith (s pre : String) : Bool := pre.data.isPrefixOf s.data

/-! ### JSON values -/

/-- A JSON value as carried in request bodies and in the store.  Numbers are
restricted to integral numerals, which covers every value the handlers
inspect (truthiness and opaque storage). -/
inductive JSValue : Type where
  | null : JSValue
  | bool : Bool → JSValue
  | num : Int → JSValue
  | str : String → JSValue
  | arr : List JSValue → JSValue
  | obj : List (String × JSValue) → JSValue

/-- JS truthiness of a JSON value: `null`, `false`, `0` and `""` are falsy,
everything else (including `[]` and `{}`) is truthy. -/
def jsTruthy : JSValue → Bool
  | JSValue.null => false
  | JSValue.bool b => b
  | JSValue.num n => n != 0
  | JSValue.str s => s != ""
  | JSValue.arr _ => true
  | JSValue.obj _ => true

/-! ### The store -/

/-- One stored entry: `{ key, data, storedDate }`. -/
structure Mapping where
  key : String
  data : JSValue
  storedDate : String

/-- The persisted document `{ mappings: [...] }`, represented by its
mappings array. -/
abbrev Store := List Mapping

/-- JS `Array.prototype.findIndex`; `none` stands for the sentinel `-1`. -/
def findIndex (p : α → Bool) : List α → Option Nat
  | [] => none
  | a :: as => if p a then some 0 else (findIndex p as).map (· + 1)

/-! ### setDynamicConfig (the put operation) -/

/-- The JSON body sent in a response to `POST /setData`. -/
inductive PutResponse where
  | badRequest (message : String)
  | saved (key : String) (accessUrl : String)

/-- Result of a put: HTTP status, response body, and the store as left on
disk (unchanged whenever no write happened). -/
structure PutOutcome where
  status : Nat
  response : PutResponse
  store : Store

/-- The line `typeof jsonData === "string" ? JSON.parse(jsonData) : jsonData`:
string data is parsed as JSON text, any other value is taken as is.
`parse` is the platform `JSON.parse`, with `none` for a parse error. -/
def parseIfString (parse : String → Option JSValue) : JSValue → Option JSValue
  | JSValue.str s => parse s
  | d => some d

/-- `setDynamicConfig` (src/unnamed/part_000 lines 457-519), with the config
file as explicit state.  `key`/`data` are the body fields (`none` when the
field is absent).  The catch-all key branch covers `!key` for a missing or
non-string falsy key and `typeof key !== "string"`; a falsy string key `""`
lands in the `jsTrim ks == ""` branch with the same response.
`encodeURIComponent` is the identity on the keys considered. -/
def setDynamicConfig (parse : String → Option JSValue)
    (key data : Option JSValue) (nowIso : String) (store : Store) : PutOutcome :=
  match key with
  | some (JSValue.str ks) =>
      if jsTrim ks == "" then
        ⟨400, PutResponse.badRequest "Key is required and must be a non-empty string", store⟩
      else
        match data with
        | none => ⟨400, PutResponse.badRequest "Data is required", store⟩
        | some d =>
            if !jsTruthy d then
              ⟨400, PutResponse.badRequest "Data is required", store⟩
            else
              match parseIfString parse d with
              | none => ⟨400, PutResponse.badRequest "Invalid JSON data provided", store⟩
              | some parsedData =>
                  let newMapping : Mapping := ⟨jsTrim ks, parsedData, nowIso⟩
                  match findIndex (fun m => m.key == ks) store with
                  | some i =>
                      ⟨200, PutResponse.saved (jsTrim ks) ("/getData?id=" ++ jsTrim ks),
                        store.set i newMapping⟩
                  | none =>
                      ⟨200, PutResponse.saved (jsTrim ks) ("/getData?id=" ++ jsTrim ks),
                        store ++ [newMapping]⟩
  | _ =>
      ⟨400, PutResponse.badRequest "Key is required and must be a non-empty string", store⟩

/-! ### getDynamicConfigData (the get operation) -/

/-- The JSON body sent in a response to `GET /get?id=...`. -/
inductive GetOutcome where
  | badRequest (message : String)
  | notFound (message : String)
  | found (key : String) (data : JSValue) (storedDate : String)

/-- HTTP status attached to each get outcome. -/
def GetOutcome.status : GetOutcome → Nat
  | GetOutcome.badRequest _ => 400
  | GetOutcome.notFound _ => 404
  | GetOutcome.found _ _ _ => 200

/-- `getDynamicConfigData` (src/unnamed/part_000 lines 521-556).  `id` is the
query parameter (`none` when absent); the `jsTrim s == ""` branch also covers
the falsy id `""`. -/
def getDynamicConfigData (id : Option String) (store : Store) : GetOutcome :=
  match id with
  | none => GetOutcome.badRequest "Query parameter \x27id\x27 is required"
  | some s =>
      if jsTrim s == "" then
        GetOutcome.badRequest "Query parameter \x27id\x27 is required"
      else
        match store.find? (fun m => m.key == jsTrim s) with
        | none => GetOutcome.notFound "Data not found. Please check the ID and try again."
        | some m => GetOutcome.found m.key m.data m.storedDate

/-! ### Expiry sweep -/

/-- `1000 * 60 * 60 * 24` milliseconds. -/
def msPerDay : Int := 1000 * 60 * 60 * 24

/-- `compareDateInDays` (src/unnamed/part_000 lines 577-582): age of a stored
date in days, `(now − date) / 86400000`.  Timestamps are milliseconds;
`parseDate` is the platform `Date` parser with `none` for an Invalid Date,
whose `NaN` age is modelled by `none`.  The exact rational division agrees
with the JS float comparison against `1` at these magnitudes. -/
def compareDateInDays (parseDate : String → Option Int) (now : Int)
    (dateString : String) : Option ℚ :=
  match parseDate dateString with
  | none => none
  | some t => some (((now - t : Int) : ℚ) / (msPerDay : ℚ))

/-- The filter predicate `compareDateInDays(mapping.storedDate) < 1`.  A `NaN`
age compares false in JS, so an unparsable date is never kept. -/
def keepMapping (parseDate : String → Option Int) (now : Int) (m : Mapping) : Bool :=
  match compareDateInDays parseDate now m.storedDate with
  | none => false
  | some age => decide (age < 1)

/-- Observable outcome of one sweep: the store as left on disk (`none` when
the load failed and the disk content is whatever it was), whether a
write-back happened, whether the catch branch logged an error, and whether
`next()` was invoked. -/
structure SweepOutcome where
  store : Option Store
  wrote : Bool
  loggedError : Bool
  calledNext : Bool

/-- `removeDayOldData` (src/unnamed/part_000 lines 584-607).  `loadResult`
and `writeResult` expose the fallible `readConfigFile` / `writeConfigFile`
steps; a failed write leaves the old content on disk. -/
def removeDayOldData (parseDate : String → Option Int) (now : Int)
    (loadResult : Except String Store) (writeResult : Except String Unit) : SweepOutcome :=
  match loadResult with
  | Except.error _ => ⟨none, false, true, true⟩
  | Except.ok mappings =>
      let filteredMappings := mappings.filter (keepMapping parseDate now)
      if filteredMappings.length != mappings.length then
        match writeResult with
        | Except.ok _ => ⟨some filteredMappings, true, false, true⟩
        | Except.error _ => ⟨some mappings, false, true, true⟩
      else
        ⟨some mappings, false, false, true⟩

/-! ### Static file serving -/

/-- The fixed public directory `path.join(__dirname, "public")`; the concrete
root prefix is irrelevant to the behaviour of the handler. -/
def PUBLIC_DIR : String := "/srv/jsonvault/public"

/-- Split a character list at `/`. -/
def splitSegsAux : List Char → List Char → List String
  | [], cur => [String.mk cur.reverse]
  | c :: rest, cur =>
      if c == '/' then String.mk cur.reverse :: splitSegsAux rest []
      else splitSegsAux rest (c :: cur)

/-- Split a path into its `/`-separated segments. -/
def splitSegs (s : String) : List String := splitSegsAux s.data []

/-- Resolve `.`, `..` and empty segments the way the Node `path.normalize` function
does for an absolute path (`..` at the root stays at the root). -/
def normalizeSegs (segs : List String) : List String :=
  segs.foldl
    (fun acc seg =>
      if seg == "" || seg == "." then acc
      else if seg == ".." then acc.dropLast
      else acc ++ [seg])
    []

/-- Join path segments back with `/`. -/
def joinSegs : List String → String
  | [] => ""
  | [s] => s
  | s :: rest => s ++ "/" ++ joinSegs rest

/-- Node `path.join dir fn` for an absolute `dir`: concatenate, then
normalize. -/
def pathJoin (dir fn : String) : String :=
  "/" ++ joinSegs (normalizeSegs (splitSegs (dir ++ "/" ++ fn)))

/-- Observable outcome of the static handler: 403 without touching the file
system, 404 on `ENOENT`, or a successful read-and-send of the file at the
resolved path. -/
inductive StaticOutcome where
  | forbidden
  | fileNotFound
  | served (filePath : String)

/-- HTTP status of a static outcome. -/
def StaticOutcome.status : StaticOutcome → Nat
  | StaticOutcome.forbidden => 403
  | StaticOutcome.fileNotFound => 404
  | StaticOutcome.served _ => 200

/-- `serveStaticFile` (src/unnamed/part_001 lines 50-70).  `fsHas` tells
which absolute paths name an existing readable file; `filename` is
`req.params.filename` (`none` on the `/` route), and `|| "index.html"` also
catches the falsy empty string. -/
def serveStaticFile (fsHas : String → Bool) (filename : Option String) : StaticOutcome :=
  let fn := match filename with
    | none => "index.html"
    | some s => if s == "" then "index.html" else s
  let filePath := pathJoin PUBLIC_DIR fn
  if !(jsStartsWith filePath PUBLIC_DIR) then StaticOutcome.forbidden
  else if fsHas filePath then StaticOutcome.served filePath
  else StaticOutcome.fileNotFound

/-- A resolved path actually lies inside the public directory: it is the
directory itself or sits strictly below it.  This is the notion of not
escaping used by the spec; the `startsWith` test of the handler is coarser. -/
def insidePublicDir (p : String) : Bool :=
  p == PUBLIC_DIR || jsStartsWith p (PUBLIC_DIR ++ "/")

/-! ### Helper lemmas -/

theorem findIndex_eq_none_iff {p : α → Bool} {l : List α} :
    findIndex p l = none ↔ ∀ a ∈ l, p a = false := by
  induction l with
  | nil => simp [findIndex]
  | cons a as ih => by_cases h : p a <;> simp [findIndex, h, ih]

theorem find?_set_of_findIndex {p : α → Bool} {l : List α} {i : Nat} {x : α}
    (hi : findIndex p l = some i) (hx : p x = true) :
    (l.set i x).find? p = some x := by
  induction l generalizing i with
  | nil => simp [findIndex] at hi
  | cons a as ih =>
    by_cases h : p a
    · simp [findIndex, h] at hi
      subst hi
      simp [List.set, List.find?, hx]
    · simp [findIndex, h, Option.map_eq_some'] at hi
      obtain ⟨n, hn, rfl⟩ := hi
      simpa [List.set, List.find?, h] using ih hn

theorem find?_eq_none_of_findIndex_none {p : α → Bool} {l : List α}
    (hl : findIndex p l = none) : l.find? p = none := by
  rw [List.find?_eq_none]
  intro x hx
  simp [findIndex_eq_none_iff.mp hl x hx]

theorem find?_append_of_findIndex_none {p : α → Bool} {l : List α} {x : α}
    (hl : findIndex p l = none) (hx : p x = true) :
    (l ++ [x]).find? p = some x := by
  induction l with
  | nil => simp [List.find?, hx]
  | cons a as ih =>
    by_cases h : p a
    · simp [findIndex, h] at hl
    · simp [findIndex, h] at hl
      simpa [List.find?, h] using ih hl

theorem mem_set_of_findIndex {p : α → Bool} {l : List α} {i : Nat} {x : α}
    (hi : findIndex p l = some i) : x ∈ l.set i x := by
  induction l generalizing i with
  | nil => simp [findIndex] at hi
  | cons a as ih =>
    by_cases h : p a
    · simp [findIndex, h] at hi
      subst hi
      simp [List.set]
    · simp [findIndex, h, Option.map_eq_some'] at hi
      obtain ⟨n, hn, rfl⟩ := hi
      simpa [List.set] using Or.inr (ih hn)

theorem map_key_set_of_findIndex {l : List Mapping} {i : Nat} {k : String} {x : Mapping}
    (hi : findIndex (fun m => m.key == k) l = some i) (hx : x.key = k) :
    (l.set i x).map Mapping.key = l.map Mapping.key := by
  induction l generalizing i with
  | nil => simp [findIndex] at hi
  | cons a as ih =>
    by_cases h : (a.key == k) = true
    · simp [findIndex, h] at hi
      subst hi
      have hax : x.key = a.key := by rw [hx]; exact (beq_iff_eq.mp h).symm
      simp [List.set, hax]
    · simp [findIndex, h, Option.map_eq_some'] at hi
      obtain ⟨n, hn, rfl⟩ := hi
      simp [List.set, ih hn]

theorem keepMapping_iff {parseDate : String → Option Int} {now t : Int} {m : Mapping}
    (ht : parseDate m.storedDate = some t) :
    keepMapping parseDate now m = true ↔ now - t < msPerDay := by
  unfold keepMapping compareDateInDays
  rw [ht]
  simp only [decide_eq_true_eq]
  rw [div_lt_one (by norm_num [msPerDay])]
  constructor <;> intro h <;> exact_mod_cast h

theorem removeDayOldData_ok_store (parseDate : String → Option Int) (now : Int) (ms : Store) :
    (removeDayOldData parseDate now (Except.ok ms) (Except.ok ())).store
      = some (ms.filter (keepMapping parseDate now)) := by
  unfold removeDayOldData
  by_cases h : (ms.filter (keepMapping parseDate now)).length = ms.length
  · simp [h]
    exact ((List.filter_sublist ms).eq_of_length h).symm
  · simp [h]

/-! ### Claim C5 -/

/-- C5: the expiry filter computes the age of each Mapping as `(now − storedDate)`
in days and keeps exactly the Mappings whose age is strictly less than one
day; a Mapping stored exactly 23 hours ago survives a filter pass, one
stored 25 hours ago is removed. -/
theorem expiry_keeps_age_under_one_day (parseDate : String → Option Int) (now : Int)
    (ms : Store) (m : Mapping) (t : Int) (ht : parseDate m.storedDate = some t) :
    (removeDayOldData parseDate now (Except.ok ms) (Except.ok ())).store
        = some (ms.filter (keepMapping parseDate now))
    ∧ (keepMapping parseDate now m = true ↔ now - t < msPerDay)
    ∧ (now - t = 23 * 60 * 60 * 1000 → keepMapping parseDate now m = true)
    ∧ (now - t = 25 * 60 * 60 * 1000 → keepMapping parseDate now m = false) := by
  have hiff := @keepMapping_iff parseDate now t m ht
  refine ⟨removeDayOldData_ok_store _ _ _, hiff, ?_, ?_⟩
  · intro h
    exact hiff.mpr (by rw [h]; norm_num [msPerDay])
  · intro h
    refine Bool.eq_false_iff.mpr (fun hk => ?_)
    have := hiff.mp hk
    rw [h] at this
    norm_num [msPerDay] at this

/-- Witness for C5: with a date parser sending every string to time 0 and
`now` 23 hours later, the single stored Mapping is kept. -/
theorem expiry_keeps_age_under_one_day_witness :
    keepMapping (fun _ => some 0) 82800000 ⟨"k", JSValue.null, "D"⟩ = true :=
  (expiry_keeps_age_under_one_day (fun _ => some 0) 82800000 []
    ⟨"k", JSValue.null, "D"⟩ 0 rfl).2.2.1 (by decide)

/-! ### Claim C8 -/

/-- C8: the expiry sweep invokes `next()` on every path — after a successful
pass, after a load failure and after a write-back failure — and each failure
is logged; it never blocks the request. -/
theorem expiry_sweep_always_proceeds (parseDate : String → Option Int) (now : Int)
    (loadResult : Except String Store) (writeResult : Except String Unit) :
    (removeDayOldData parseDate now loadResult writeResult).calledNext = true
    ∧ (∀ e, loadResult = Except.error e →
        (removeDayOldData parseDate now loadResult writeResult).loggedError = true)
    ∧ (∀ e ms, loadResult = Except.ok ms → writeResult = Except.error e →
        (ms.filter (keepMapping parseDate now)).length ≠ ms.length →
        (removeDayOldData parseDate now loadResult writeResult).loggedError = true) := by
  cases loadResult with
  | error e => simp [removeDayOldData]
  | ok ms =>
    refine ⟨?_, by simp, ?_⟩
    · unfold removeDayOldData
      by_cases h : (ms.filter (keepMapping parseDate now)).length = ms.length
      · simp [h]
      · cases writeResult <;> simp [h]
    · intro e ms2 hok hw hne
      cases hok
      unfold removeDayOldData
      rw [hw]
      simp [hne]

/-- Witness for C8: a failed load is logged and the request still proceeds. -/
theorem expiry_sweep_always_proceeds_witness :
    (removeDayOldData (fun _ => some 0) 0 (Except.error "EACCES") (Except.ok ())).calledNext
        = true
    ∧ (removeDayOldData (fun _ => some 0) 0 (Except.error "EACCES") (Except.ok ())).loggedError
        = true :=
  ⟨(expiry_sweep_always_proceeds (fun _ => some 0) 0 (Except.error "EACCES") (Except.ok ())).1,
   (expiry_sweep_always_proceeds (fun _ => some 0) 0
      (Except.error "EACCES") (Except.ok ())).2.1 "EACCES" rfl⟩

/-! ### Claim C10 -/

/-- C10: a Mapping whose `storedDate` does not parse is always removed by the
sweep (its `NaN` age fails `age < 1`), while a Mapping whose `storedDate`
lies in the future always survives. -/
theorem expiry_invalid_date_removed_future_survives (parseDate : String → Option Int)
    (now : Int) (ms : Store) (m : Mapping) (hm : m ∈ ms) :
    (parseDate m.storedDate = none →
       m ∉ ((removeDayOldData parseDate now (Except.ok ms) (Except.ok ())).store.getD []))
    ∧ (∀ t, parseDate m.storedDate = some t → now < t →
       m ∈ ((removeDayOldData parseDate now (Except.ok ms) (Except.ok ())).store.getD [])) := by
  rw [removeDayOldData_ok_store]
  constructor
  · intro hnone hmem
    rw [Option.getD_some, List.mem_filter] at hmem
    have hkeep : keepMapping parseDate now m = false := by
      unfold keepMapping compareDateInDays
      rw [hnone]
    rw [hkeep] at hmem
    exact absurd hmem.2 (by simp)
  · intro t ht hfut
    rw [Option.getD_some, List.mem_filter]
    refine ⟨hm, (keepMapping_iff ht).mpr ?_⟩
    have : now - t < 0 := by omega
    have hpos : (0 : Int) < msPerDay := by norm_num [msPerDay]
    omega

/-- Witness for C10: an unparsable `storedDate` is removed; a date one
millisecond in the future is kept. -/
theorem expiry_invalid_date_removed_future_survives_witness :
    (⟨"k", JSValue.null, "not-a-date"⟩ : Mapping) ∉
      ((removeDayOldData (fun _ => none) 0
          (Except.ok [⟨"k", JSValue.null, "not-a-date"⟩]) (Except.ok ())).store.getD [])
    ∧ (⟨"f", JSValue.null, "F"⟩ : Mapping) ∈
      ((removeDayOldData (fun _ => some 1) 0
          (Except.ok [⟨"f", JSValue.null, "F"⟩]) (Except.ok ())).store.getD []) :=
  ⟨(expiry_invalid_date_removed_future_survives (fun _ => none) 0 _ _
      (List.mem_singleton_self _)).1 rfl,
   (expiry_invalid_date_removed_future_survives (fun _ => some 1) 0 _ _
      (List.mem_singleton_self _)).2 1 rfl (by decide)⟩

/-! ### Claim C7 -/

/-- C7: for an id that survives validation (non-empty after trimming), the
get operation looks up a Mapping whose key equals the trimmed id by exact,
case-sensitive string comparison; if none exists the outcome is the 404
not-found response, and otherwise the key, data and stored timestamp
of the found Mapping are returned.  The handler is a total function of its inputs, so
no exception escapes it. -/
theorem get_exact_match_or_not_found (store : Store) (s : String)
    (hs : jsTrim s ≠ "") :
    (store.find? (fun m => m.key == jsTrim s) = none →
       getDynamicConfigData (some s) store
         = GetOutcome.notFound "Data not found. Please check the ID and try again."
       ∧ (getDynamicConfigData (some s) store).status = 404)
    ∧ (∀ m, store.find? (fun m => m.key == jsTrim s) = some m →
       getDynamicConfigData (some s) store = GetOutcome.found m.key m.data m.storedDate) := by
  have hbeq : (jsTrim s == "") = false := beq_eq_false_iff_ne.mpr hs
  constructor
  · intro hnone
    simp [getDynamicConfigData, hbeq, hnone, GetOutcome.status]
  · intro m hm
    simp [getDynamicConfigData, hbeq, hm]

/-- Witness for C7: `get "nonexistent-key"` on the empty store is the 404
not-found outcome. -/
theorem get_exact_match_or_not_found_witness :
    getDynamicConfigData (some "nonexistent-key") []
        = GetOutcome.notFound "Data not found. Please check the ID and try again."
    ∧ (getDynamicConfigData (some "nonexistent-key") []).status = 404 :=
  (get_exact_match_or_not_found [] "nonexistent-key" (by decide)).1 rfl

/-! ### Claim C6 -/

/-- C6: every put that fails input validation — key missing, not a string,
or empty after trimming; data missing; or string data that does not parse as
JSON — produces status 400 and leaves the store completely unchanged. -/
theorem put_validation_failure_no_mutation (parse : String → Option JSValue)
    (key data : Option JSValue) (nowIso : String) (store : Store)
    (h : (∀ s, key ≠ some (JSValue.str s))
       ∨ (∃ s, key = some (JSValue.str s) ∧ jsTrim s = "")
       ∨ data = none
       ∨ (∃ s, data = some (JSValue.str s) ∧ parse s = none)) :
    (setDynamicConfig parse key data nowIso store).status = 400
    ∧ (setDynamicConfig parse key data nowIso store).store = store := by
  obtain h | ⟨s, rfl, hs⟩ | rfl | ⟨s, rfl, hp⟩ := h
  · match key with
    | none => simp [setDynamicConfig]
    | some JSValue.null => simp [setDynamicConfig]
    | some (JSValue.bool b) => simp [setDynamicConfig]
    | some (JSValue.num n) => simp [setDynamicConfig]
    | some (JSValue.str s) => exact absurd rfl (h s)
    | some (JSValue.arr xs) => simp [setDynamicConfig]
    | some (JSValue.obj fs) => simp [setDynamicConfig]
  · simp [setDynamicConfig, hs]
  · match key with
    | none => simp [setDynamicConfig]
    | some JSValue.null => simp [setDynamicConfig]
    | some (JSValue.bool b) => simp [setDynamicConfig]
    | some (JSValue.num n) => simp [setDynamicConfig]
    | some (JSValue.arr xs) => simp [setDynamicConfig]
    | some (JSValue.obj fs) => simp [setDynamicConfig]
    | some (JSValue.str ks) =>
        by_cases hks : jsTrim ks = ""
        · simp [setDynamicConfig, hks]
        · simp [setDynamicConfig, beq_eq_false_iff_ne.mpr hks]
  · match key with
    | none => simp [setDynamicConfig]
    | some JSValue.null => simp [setDynamicConfig]
    | some (JSValue.bool b) => simp [setDynamicConfig]
    | some (JSValue.num n) => simp [setDynamicConfig]
    | some (JSValue.arr xs) => simp [setDynamicConfig]
    | some (JSValue.obj fs) => simp [setDynamicConfig]
    | some (JSValue.str ks) =>
        by_cases hks : jsTrim ks = ""
        · simp [setDynamicConfig, hks]
        · by_cases hse : s = ""
          · simp [setDynamicConfig, beq_eq_false_iff_ne.mpr hks, jsTruthy, hse]
          · simp [setDynamicConfig, beq_eq_false_iff_ne.mpr hks, jsTruthy,
              bne_iff_ne, hse, parseIfString, hp]

/-- Witness for C6: `put("", anything)` is a 400 bad request and leaves a
one-entry store untouched. -/
theorem put_validation_failure_no_mutation_witness :
    (setDynamicConfig (fun _ => none) (some (JSValue.str "")) (some (JSValue.num 1)) "T"
        [⟨"k", JSValue.null, "D"⟩]).status = 400
    ∧ (setDynamicConfig (fun _ => none) (some (JSValue.str "")) (some (JSValue.num 1)) "T"
        [⟨"k", JSValue.null, "D"⟩]).store = [⟨"k", JSValue.null, "D"⟩] :=
  put_validation_failure_no_mutation (fun _ => none) (some (JSValue.str ""))
    (some (JSValue.num 1)) "T" [⟨"k", JSValue.null, "D"⟩]
    (Or.inr (Or.inl ⟨"", rfl, rfl⟩))

/-! ### Claim C1 -/

/-- C1 counterexample: the store holds a Mapping whose key `"k"` equals the
trimmed input key of `put(" k", 2)`, yet the put appends a second Mapping
instead of replacing the existing one in place — the lookup compares against
the untrimmed input key. -/
theorem put_trimmed_lookup_counterexample :
    jsTrim " k" = "k"
    ∧ (setDynamicConfig (fun _ => none) (some (JSValue.str " k")) (some (JSValue.num 2)) "T"
        [⟨"k", JSValue.num 1, "D"⟩]).store
      = [⟨"k", JSValue.num 1, "D"⟩, ⟨"k", JSValue.num 2, "T"⟩]
    ∧ ((setDynamicConfig (fun _ => none) (some (JSValue.str " k")) (some (JSValue.num 2)) "T"
        [⟨"k", JSValue.num 1, "D"⟩]).store.map Mapping.key) = ["k", "k"] :=
  ⟨rfl, rfl, rfl⟩

/-- C1 (amended): a valid put looks up an existing Mapping by comparing
stored keys with the UNTRIMMED input key; if one matches it is replaced in
place at the same index, otherwise the new Mapping is appended at the end;
in both cases the stored key is the trimmed input key. -/
theorem put_lookup_untrimmed_replace_or_append (parse : String → Option JSValue)
    (ks : String) (d pd : JSValue) (nowIso : String) (store : Store)
    (hk : jsTrim ks ≠ "") (hd : jsTruthy d = true)
    (hp : parseIfString parse d = some pd) :
    (setDynamicConfig parse (some (JSValue.str ks)) (some d) nowIso store).status = 200
    ∧ (∀ i, findIndex (fun m => m.key == ks) store = some i →
        (setDynamicConfig parse (some (JSValue.str ks)) (some d) nowIso store).store
          = store.set i ⟨jsTrim ks, pd, nowIso⟩)
    ∧ (findIndex (fun m => m.key == ks) store = none →
        (setDynamicConfig parse (some (JSValue.str ks)) (some d) nowIso store).store
          = store ++ [⟨jsTrim ks, pd, nowIso⟩]) := by
  have hbeq : (jsTrim ks == "") = false := beq_eq_false_iff_ne.mpr hk
  cases hfind : findIndex (fun m => m.key == ks) store with
  | none => refine ⟨?_, ?_, ?_⟩ <;> simp [setDynamicConfig, hbeq, hd, hp, hfind]
  | some i => refine ⟨?_, ?_, ?_⟩ <;> simp [setDynamicConfig, hbeq, hd, hp, hfind]

/-- Witness for C1: a put of key `"k"` on the empty store appends the new
Mapping with the trimmed key. -/
theorem put_lookup_untrimmed_replace_or_append_witness :
    (setDynamicConfig (fun _ => none) (some (JSValue.str "k")) (some (JSValue.num 1)) "T"
        []).store = [] ++ [⟨jsTrim "k", JSValue.num 1, "T"⟩] :=
  (put_lookup_untrimmed_replace_or_append (fun _ => none) "k" (JSValue.num 1)
    (JSValue.num 1) "T" [] (by decide) rfl rfl).2.2 rfl

/-! ### Claim C3 -/

theorem parseIfString_of_not_str {parse : String → Option JSValue} {d : JSValue}
    (hd : ∀ s, d ≠ JSValue.str s) : parseIfString parse d = some d := by
  cases d <;> first | rfl | exact absurd rfl (hd _)

/-- C3 counterexample: the present scalar data value `0` is a valid JSON
value, yet `put("k", 0)` rejects it as missing data (`!jsonData` is true for
every falsy value), leaving the store unchanged. -/
theorem put_falsy_data_counterexample :
    setDynamicConfig (fun _ => none) (some (JSValue.str "k")) (some (JSValue.num 0)) "T" []
      = ⟨400, PutResponse.badRequest "Data is required", []⟩ :=
  rfl

/-- C3 (amended): for a valid key, put accepts exactly the truthy data
values: a falsy value (`null`, `false`, `0`, `""`) or a missing one is
rejected as "Data is required"; a truthy non-string value is stored opaquely
as given; a truthy string is parsed as JSON text, rejected when the parse
fails and stored as the parsed value when it succeeds. -/
theorem put_data_truthy_validation (parse : String → Option JSValue)
    (ks nowIso : String) (store : Store) (hk : jsTrim ks ≠ "") :
    (setDynamicConfig parse (some (JSValue.str ks)) none nowIso store
       = ⟨400, PutResponse.badRequest "Data is required", store⟩)
    ∧ (∀ d, jsTruthy d = false →
        setDynamicConfig parse (some (JSValue.str ks)) (some d) nowIso store
          = ⟨400, PutResponse.badRequest "Data is required", store⟩)
    ∧ (∀ d, jsTruthy d = true → (∀ s, d ≠ JSValue.str s) →
        (setDynamicConfig parse (some (JSValue.str ks)) (some d) nowIso store).status = 200
        ∧ (⟨jsTrim ks, d, nowIso⟩ : Mapping)
            ∈ (setDynamicConfig parse (some (JSValue.str ks)) (some d) nowIso store).store)
    ∧ (∀ s, s ≠ "" → parse s = none →
        setDynamicConfig parse (some (JSValue.str ks)) (some (JSValue.str s)) nowIso store
          = ⟨400, PutResponse.badRequest "Invalid JSON data provided", store⟩)
    ∧ (∀ s v, s ≠ "" → parse s = some v →
        (setDynamicConfig parse (some (JSValue.str ks)) (some (JSValue.str s)) nowIso
            store).status = 200
        ∧ (⟨jsTrim ks, v, nowIso⟩ : Mapping)
            ∈ (setDynamicConfig parse (some (JSValue.str ks)) (some (JSValue.str s)) nowIso
                store).store) := by
  have hbeq : (jsTrim ks == "") = false := beq_eq_false_iff_ne.mpr hk
  refine ⟨by simp [setDynamicConfig, hbeq], ?_, ?_, ?_, ?_⟩
  · intro d hd
    simp [setDynamicConfig, hbeq, hd]
  · intro d hd hds
    have hpd := @parseIfString_of_not_str parse d hds
    cases hfind : findIndex (fun m => m.key == ks) store with
    | none =>
        refine ⟨by simp [setDynamicConfig, hbeq, hd, hpd, hfind], ?_⟩
        simp [setDynamicConfig, hbeq, hd, hpd, hfind]
    | some i =>
        refine ⟨by simp [setDynamicConfig, hbeq, hd, hpd, hfind], ?_⟩
        simp only [setDynamicConfig, hbeq, hd, hpd, hfind]
        simpa using mem_set_of_findIndex (x := (⟨jsTrim ks, d, nowIso⟩ : Mapping)) hfind
  · intro s hse hp
    simp [setDynamicConfig, hbeq, jsTruthy, bne_iff_ne, hse, parseIfString, hp]
  · intro s v hse hp
    have hsd : jsTruthy (JSValue.str s) = true := by simp [jsTruthy, bne_iff_ne, hse]
    have hpd : parseIfString parse (JSValue.str s) = some v := hp
    cases hfind : findIndex (fun m => m.key == ks) store with
    | none =>
        refine ⟨by simp [setDynamicConfig, hbeq, hsd, hpd, hfind], ?_⟩
        simp [setDynamicConfig, hbeq, hsd, hpd, hfind]
    | some i =>
        refine ⟨by simp [setDynamicConfig, hbeq, hsd, hpd, hfind], ?_⟩
        simp only [setDynamicConfig, hbeq, hsd, hpd, hfind]
        simpa using mem_set_of_findIndex (x := (⟨jsTrim ks, v, nowIso⟩ : Mapping)) hfind

/-- Witness for C3: the truthy array value `[]` is accepted and stored as
given; the falsy value `false` is rejected with the store unchanged. -/
theorem put_data_truthy_validation_witness :
    ((setDynamicConfig (fun _ => none) (some (JSValue.str "k")) (some (JSValue.arr [])) "T"
        []).status = 200
      ∧ (⟨jsTrim "k", JSValue.arr [], "T"⟩ : Mapping)
          ∈ (setDynamicConfig (fun _ => none) (some (JSValue.str "k"))
              (some (JSValue.arr [])) "T" []).store)
    ∧ setDynamicConfig (fun _ => none) (some (JSValue.str "k")) (some (JSValue.bool false))
        "T" [] = ⟨400, PutResponse.badRequest "Data is required", []⟩ :=
  ⟨(put_data_truthy_validation (fun _ => none) "k" "T" [] (by decide)).2.2.1
      (JSValue.arr []) rfl (fun s => by intro h; cases h),
   (put_data_truthy_validation (fun _ => none) "k" "T" [] (by decide)).2.1
      (JSValue.bool false) rfl⟩

/-! ### Claim C4 -/

/-- C4 counterexample: for the key `k = "a "` (a valid key, since it trims
to `"a"`) and the JSON value `7`, `put(k, 7)` followed by `get(k)` succeeds
but returns the key `"a"`, not the same `k`: the round-trip does not return
the same key for keys with surrounding whitespace. -/
theorem put_get_roundtrip_counterexample :
    getDynamicConfigData (some "a ")
        (setDynamicConfig (fun _ => none) (some (JSValue.str "a ")) (some (JSValue.num 7))
          "T" []).store
      = GetOutcome.found "a" (JSValue.num 7) "T"
    ∧ ("a" : String) ≠ "a " :=
  ⟨rfl, by decide⟩

/-- C4 (amended): for a key equal to its own trim and a data value that
passes validation (truthy, and parsed when a string), a put followed by a
get of the same key — on any prior store — returns the stored value (the
value itself for non-string data, its JSON parse for string data) together
with the same key and the timestamp of the put. -/
theorem put_get_roundtrip_trimmed (parse : String → Option JSValue) (k : String)
    (v p : JSValue) (nowIso : String) (store : Store)
    (hk : jsTrim k = k) (hne : k ≠ "")
    (hd : jsTruthy v = true) (hp : parseIfString parse v = some p) :
    getDynamicConfigData (some k)
        (setDynamicConfig parse (some (JSValue.str k)) (some v) nowIso store).store
      = GetOutcome.found k p nowIso := by
  have hkne : jsTrim k ≠ "" := by rw [hk]; exact hne
  have hbeq : (jsTrim k == "") = false := beq_eq_false_iff_ne.mpr hkne
  have hbeq2 : (k == "") = false := beq_eq_false_iff_ne.mpr hne
  cases hfind : findIndex (fun m => m.key == k) store with
  | some i =>
      have hfound := find?_set_of_findIndex (x := (⟨k, p, nowIso⟩ : Mapping)) hfind (by simp)
      simp [setDynamicConfig, hbeq, hd, hp, hfind, getDynamicConfigData, hk, hbeq2, hfound]
  | none =>
      have hnone := find?_eq_none_of_findIndex_none hfind
      simp [setDynamicConfig, hbeq, hd, hp, hfind, getDynamicConfigData, hk, hbeq2, hnone]

/-- Witness for C4: `put("abc123", {"a": 1})` then `get("abc123")` on the
empty store returns the stored object and the same key. -/
theorem put_get_roundtrip_trimmed_witness :
    getDynamicConfigData (some "abc123")
        (setDynamicConfig (fun _ => none) (some (JSValue.str "abc123"))
          (some (JSValue.obj [("a", JSValue.num 1)])) "T" []).store
      = GetOutcome.found "abc123" (JSValue.obj [("a", JSValue.num 1)]) "T" :=
  put_get_roundtrip_trimmed (fun _ => none) "abc123" (JSValue.obj [("a", JSValue.num 1)])
    (JSValue.obj [("a", JSValue.num 1)]) "T" [] (by decide) (by decide) rfl rfl

/-! ### Claim C2 -/

/-- C2 counterexample: starting from the empty store, `put(" k", 1)` then
`put(" k", 2)` — the same key twice — leaves TWO Mappings for the stored key
`"k"`, and `get(" k")` returns the first value `1`, not `2`: the lookup uses
the untrimmed key while the stored key is trimmed, so the second put never
finds the first. -/
theorem put_duplicate_key_counterexample :
    (setDynamicConfig (fun _ => none) (some (JSValue.str " k")) (some (JSValue.num 2)) "T2"
        (setDynamicConfig (fun _ => none) (some (JSValue.str " k")) (some (JSValue.num 1))
          "T1" []).store).store
      = [⟨"k", JSValue.num 1, "T1"⟩, ⟨"k", JSValue.num 2, "T2"⟩]
    ∧ getDynamicConfigData (some " k")
        (setDynamicConfig (fun _ => none) (some (JSValue.str " k")) (some (JSValue.num 2)) "T2"
          (setDynamicConfig (fun _ => none) (some (JSValue.str " k")) (some (JSValue.num 1))
            "T1" []).store).store
      = GetOutcome.found "k" (JSValue.num 1) "T1" :=
  ⟨rfl, rfl⟩

/-- C2 (amended): when every supplied key equals its own trim, put preserves
duplicate-freeness of the stored keys (so any sequence of such puts from the
empty store keeps at most one Mapping per key); in particular `put(k, v1)`
then `put(k, v2)` from the empty store leaves exactly the one Mapping
`⟨k, parse of v2, t2⟩` and `get(k)` returns the stored value of `v2`. -/
theorem put_put_same_key_unique_trimmed (parse : String → Option JSValue) (k : String)
    (v1 v2 p1 p2 : JSValue) (t1 t2 : String)
    (hk : jsTrim k = k) (hne : k ≠ "")
    (h1 : jsTruthy v1 = true) (hp1 : parseIfString parse v1 = some p1)
    (h2 : jsTruthy v2 = true) (hp2 : parseIfString parse v2 = some p2) :
    (∀ (store : Store) (ks : String) (data : Option JSValue) (now : String),
        jsTrim ks = ks →
        (store.map Mapping.key).Nodup →
        ((setDynamicConfig parse (some (JSValue.str ks)) data now store).store.map
            Mapping.key).Nodup)
    ∧ (setDynamicConfig parse (some (JSValue.str k)) (some v2) t2
         (setDynamicConfig parse (some (JSValue.str k)) (some v1) t1 []).store).store
        = [⟨k, p2, t2⟩]
    ∧ getDynamicConfigData (some k)
        (setDynamicConfig parse (some (JSValue.str k)) (some v2) t2
           (setDynamicConfig parse (some (JSValue.str k)) (some v1) t1 []).store).store
        = GetOutcome.found k p2 t2 := by
  have hbeq : (jsTrim k == "") = false := beq_eq_false_iff_ne.mpr (by rw [hk]; exact hne)
  have hs1 : (setDynamicConfig parse (some (JSValue.str k)) (some v1) t1 []).store
      = [⟨k, p1, t1⟩] := by
    simp [setDynamicConfig, hbeq, h1, hp1, findIndex, hk, hne]
  have hs2 : (setDynamicConfig parse (some (JSValue.str k)) (some v2) t2
      [⟨k, p1, t1⟩]).store = [⟨k, p2, t2⟩] := by
    simp [setDynamicConfig, hbeq, h2, hp2, findIndex, hk, hne, List.set]
  refine ⟨?_, by rw [hs1, hs2], ?_⟩
  · intro store ks data now hks hnodup
    by_cases hkse : jsTrim ks = ""
    · simp [setDynamicConfig, hkse, hnodup]
    · have hbeqs : (jsTrim ks == "") = false := beq_eq_false_iff_ne.mpr hkse
      have hksne : ks ≠ "" := hks ▸ hkse
      cases data with
      | none => simpa [setDynamicConfig, hbeqs] using hnodup
      | some d =>
          by_cases hd : jsTruthy d = true
          · cases hpd : parseIfString parse d with
            | none => simpa [setDynamicConfig, hbeqs, hd, hpd] using hnodup
            | some pd =>
                cases hfind : findIndex (fun m => m.key == ks) store with
                | some i =>
                    have hset := map_key_set_of_findIndex
                      (x := (⟨jsTrim ks, pd, now⟩ : Mapping)) hfind hks
                    simpa [setDynamicConfig, hbeqs, hd, hpd, hfind, hset] using hnodup
                | none =>
                    have hnotin : ks ∉ store.map Mapping.key := by
                      intro hmem
                      obtain ⟨m, hm, hkey⟩ := List.mem_map.mp hmem
                      have hf := findIndex_eq_none_iff.mp hfind m hm
                      rw [hkey] at hf
                      simp at hf
                    simp [setDynamicConfig, hbeqs, hd, hpd, hfind, hksne, List.nodup_append,
                      hnodup, hks, hnotin]
          · have hdf : jsTruthy d = false := by
              cases hdd : jsTruthy d
              · rfl
              · exact absurd hdd hd
            simpa [setDynamicConfig, hbeqs, hdf] using hnodup
  · rw [hs1, hs2]
    simp [getDynamicConfigData, hbeq, hk, hne, List.find?]

/-- Witness for C2: `put("k", 1)` then `put("k", 2)` from the empty store
leaves the single Mapping `⟨"k", 2, "T2"⟩` and `get("k")` returns `2`. -/
theorem put_put_same_key_unique_trimmed_witness :
    (setDynamicConfig (fun _ => none) (some (JSValue.str "k")) (some (JSValue.num 2)) "T2"
        (setDynamicConfig (fun _ => none) (some (JSValue.str "k")) (some (JSValue.num 1))
          "T1" []).store).store
      = [⟨"k", JSValue.num 2, "T2"⟩]
    ∧ getDynamicConfigData (some "k")
        (setDynamicConfig (fun _ => none) (some (JSValue.str "k")) (some (JSValue.num 2)) "T2"
          (setDynamicConfig (fun _ => none) (some (JSValue.str "k")) (some (JSValue.num 1))
            "T1" []).store).store
      = GetOutcome.found "k" (JSValue.num 2) "T2" :=
  ⟨(put_put_same_key_unique_trimmed (fun _ => none) "k" (JSValue.num 1) (JSValue.num 2)
      (JSValue.num 1) (JSValue.num 2) "T1" "T2" (by decide) (by decide)
      rfl rfl rfl rfl).2.1,
   (put_put_same_key_unique_trimmed (fun _ => none) "k" (JSValue.num 1) (JSValue.num 2)
      (JSValue.num 1) (JSValue.num 2) "T1" "T2" (by decide) (by decide)
      rfl rfl rfl rfl).2.2⟩

/-! ### Claim C9 -/

/-- C9 (code bug): the escape test of the handler is a bare string-prefix check
on the `path.join`-resolved path, so the traversal filename
`"../public-secrets/creds.json"` resolves OUTSIDE the public directory
`"/srv/jsonvault/public"` — to the sibling `"/srv/jsonvault/public-secrets"`
directory, whose name extends the prefix — yet the handler reads and serves
the file with status 200 instead of returning 403.  The 404 branch for an
absent file inside the directory behaves as claimed. -/
theorem static_prefix_check_traversal_bug :
    serveStaticFile (fun q => q == "/srv/jsonvault/public-secrets/creds.json")
        (some "../public-secrets/creds.json")
      = StaticOutcome.served "/srv/jsonvault/public-secrets/creds.json"
    ∧ insidePublicDir "/srv/jsonvault/public-secrets/creds.json" = false
    ∧ serveStaticFile (fun _ => false) (some "style.css") = StaticOutcome.fileNotFound
    ∧ serveStaticFile (fun _ => true) (some "../../etc/passwd") = StaticOutcome.forbidden :=
  ⟨rfl, rfl, rfl, rfl⟩

end JsonVault
